import Mathlib

/-!
# Verification of the pilarjs presence client core

A shallow embedding, in Lean 4, of the core of the `pilarjs` browser presence
client (packages/client/src): the reconnection back-off ladder, the client
option validation, the WebSocket-wrapping transport, the channel lease
protocol, the connection state machine, the channel join handshake and the
MessagePack codec.  Each definition is translated from the TypeScript source
file named in its doc comment.  JavaScript numbers are modelled by `Int`/`Nat`
(exact for the integer ranges all theorems are stated over; the source itself
documents that integer precision beyond 2^53 is lost on the wire) and byte
arrays by `List Nat` with entries below 256.
-/

namespace Pilarjs

/-- `Except.isOk`, inlined to keep the development self-contained. -/
def exceptOk {ε α : Type} : Except ε α → Bool
  | .ok _ => true
  | .error _ => false

/-! ## Back-off ladder (connection.ts, lines 140-213) -/

/-- `BACKOFF_DELAYS` from connection.ts: the normal retry tier ladder, in ms. -/
def BACKOFF_DELAYS : List Nat := [250, 500, 1000, 2000, 4000, 8000, 10000]

/-- `BACKOFF_DELAYS_SLOW` from connection.ts: the slow ladder reserved for
server-signalled rate limits. -/
def BACKOFF_DELAYS_SLOW : List Nat := [2000, 30000, 60000, 300000]

/-- `RESET_DELAY = BACKOFF_DELAYS[0] - 1` from connection.ts. -/
def RESET_DELAY : Nat := 250 - 1

/-- `nextBackoffDelay` from connection.ts:
`delays.find((delay) => delay > currentDelay) ?? delays[delays.length - 1]`. -/
def nextBackoffDelay (currentDelay : Nat) (delays : List Nat) : Nat :=
  ((delays.find? fun delay => decide (delay > currentDelay)).getD
    (delays.getD (delays.length - 1) 0))

/-- On the concrete ladder, `nextBackoffDelay` is the expected cascade. -/
theorem nextBackoffDelay_eq_cascade (d : Nat) :
    nextBackoffDelay d BACKOFF_DELAYS =
      if d < 250 then 250 else if d < 500 then 500 else if d < 1000 then 1000
      else if d < 2000 then 2000 else if d < 4000 then 4000
      else if d < 8000 then 8000 else 10000 := by
  simp only [nextBackoffDelay, BACKOFF_DELAYS, List.find?]
  by_cases h1 : d < 250
  · rw [decide_eq_true (show 250 > d from h1)]; simp [h1]
  · rw [decide_eq_false (show ¬(250 > d) from h1)]
    by_cases h2 : d < 500
    · rw [decide_eq_true (show 500 > d from h2)]; simp [h1, h2]
    · rw [decide_eq_false (show ¬(500 > d) from h2)]
      by_cases h3 : d < 1000
      · rw [decide_eq_true (show 1000 > d from h3)]; simp [h1, h2, h3]
      · rw [decide_eq_false (show ¬(1000 > d) from h3)]
        by_cases h4 : d < 2000
        · rw [decide_eq_true (show 2000 > d from h4)]; simp [h1, h2, h3, h4]
        · rw [decide_eq_false (show ¬(2000 > d) from h4)]
          by_cases h5 : d < 4000
          · rw [decide_eq_true (show 4000 > d from h5)]; simp [h1, h2, h3, h4, h5]
          · rw [decide_eq_false (show ¬(4000 > d) from h5)]
            by_cases h6 : d < 8000
            · rw [decide_eq_true (show 8000 > d from h6)]
              simp [h1, h2, h3, h4, h5, h6]
            · rw [decide_eq_false (show ¬(8000 > d) from h6)]
              by_cases h7 : d < 10000
              · rw [decide_eq_true (show 10000 > d from h7)]
                simp [h1, h2, h3, h4, h5, h6]
              · rw [decide_eq_false (show ¬(10000 > d) from h7)]
                simp [h1, h2, h3, h4, h5, h6]

/-- C4: advancing the back-off from delay `d` yields a tier of the ladder that
is strictly greater than `d` and is the least such tier, whenever some tier
exceeds `d`; when no tier exceeds `d` it saturates at 10000; the reset value is
249 = first tier - 1, and advancing from it yields the first tier, 250. -/
theorem backoff_advances_to_least_greater_tier (d : Nat) :
    ((∃ t ∈ BACKOFF_DELAYS, d < t) →
        nextBackoffDelay d BACKOFF_DELAYS ∈ BACKOFF_DELAYS ∧
        d < nextBackoffDelay d BACKOFF_DELAYS ∧
        ∀ t ∈ BACKOFF_DELAYS, d < t → nextBackoffDelay d BACKOFF_DELAYS ≤ t) ∧
    ((∀ t ∈ BACKOFF_DELAYS, t ≤ d) → nextBackoffDelay d BACKOFF_DELAYS = 10000) ∧
    RESET_DELAY = 249 ∧
    nextBackoffDelay RESET_DELAY BACKOFF_DELAYS = 250 := by
  rw [nextBackoffDelay_eq_cascade d]
  refine ⟨?_, ?_, rfl, by rw [nextBackoffDelay_eq_cascade]; rfl⟩
  · rintro ⟨t, ht, hdt⟩
    simp only [BACKOFF_DELAYS, List.mem_cons, List.not_mem_nil, or_false] at ht
    refine ⟨?_, ?_, ?_⟩
    · split_ifs <;> simp [BACKOFF_DELAYS]
    · split_ifs <;> omega
    · intro u hu hdu
      simp only [BACKOFF_DELAYS, List.mem_cons, List.not_mem_nil, or_false] at hu
      split_ifs <;> omega
  · intro hall
    have h10 := hall 10000 (by simp [BACKOFF_DELAYS])
    split_ifs <;> omega

/-- Witness for `backoff_advances_to_least_greater_tier` at `d = 600`: some
tier exceeds 600, and the advanced delay exceeds 600. -/
theorem backoff_advances_to_least_greater_tier_witness :
    (∃ t ∈ BACKOFF_DELAYS, 600 < t) ∧ 600 < nextBackoffDelay 600 BACKOFF_DELAYS :=
  ⟨⟨1000, by decide, by decide⟩,
    ((backoff_advances_to_least_greater_tier 600).1 ⟨1000, by decide, by decide⟩).2.1⟩

/-! ## Client option validation (client.ts, lines 6-14, 46-68, 245-264) -/

/-- The rejection condition of `checkBounds` from client.ts:
`value < min || (max !== undefined && value > max)`.  (The
`typeof value !== "number"` disjunct is vacuous here because the model's
values are numbers.) -/
def outOfBounds (value min : Int) (max? : Option Int) : Bool :=
  decide (value < min) ||
    (match max? with
     | some mx => decide (mx < value)
     | none => false)

/-- `checkBounds` from client.ts: throws when out of bounds (the message uses
`recommendedMin ?? min`), returns the value otherwise. -/
def checkBounds (option : String) (value : Int) (min : Int)
    (max? : Option Int) (recommendedMin? : Option Int) : Except String Int :=
  if outOfBounds value min max? then
    .error (match max? with
      | some mx =>
          s!"{option} should be between {recommendedMin?.getD min} and {mx}."
      | none => s!"{option} should be at least {recommendedMin?.getD min}.")
  else .ok value

/-- The numeric options accepted by `createClient` (client.ts). `none` models
an omitted (`undefined`) option. -/
structure ClientNumericOptions where
  throttle? : Option Int
  lostConnectionTimeout? : Option Int
  backgroundKeepAliveTimeout? : Option Int
  deriving DecidableEq, Repr

/-- The validation prefix of `createClient` from client.ts (lines 46-68): the
three `checkBounds` calls, run synchronously before the `ManagedSocket` (and
hence any connection attempt) is constructed.  A thrown error propagates, so
the later checks run only if the earlier ones pass.
`options.throttle ?? 100` and `options.lostConnectionTimeout ?? 5000` default
only `undefined`, while `options.backgroundKeepAliveTimeout ? ... : undefined`
is a JS truthiness test, so a provided value of 0 skips the bounds check
entirely. -/
def createClientValidation (o : ClientNumericOptions) :
    Except String (Int × Int × Option Int) :=
  match checkBounds "throttle" (o.throttle?.getD 100) 16 (some 1000) none with
  | .error e => .error e
  | .ok throttle =>
    match checkBounds "lostConnectionTimeout" (o.lostConnectionTimeout?.getD 5000)
        200 (some 30000) (some 1000) with
    | .error e => .error e
    | .ok lostConnectionTimeout =>
      match o.backgroundKeepAliveTimeout? with
      | none => .ok (throttle, lostConnectionTimeout, none)
      | some v =>
        if v = 0 then .ok (throttle, lostConnectionTimeout, none)
        else
          match checkBounds "backgroundKeepAliveTimeout" v 15000 none none with
          | .error e => .error e
          | .ok b => .ok (throttle, lostConnectionTimeout, some b)

/-- `createClientValidation` succeeds exactly when the boolean bound checks
pass (with `backgroundKeepAliveTimeout = 0` short-circuiting as falsy). -/
theorem createClientValidation_exceptOk (o : ClientNumericOptions) :
    exceptOk (createClientValidation o) =
      (!outOfBounds (o.throttle?.getD 100) 16 (some 1000) &&
       !outOfBounds (o.lostConnectionTimeout?.getD 5000) 200 (some 30000) &&
       (match o.backgroundKeepAliveTimeout? with
        | none => true
        | some v => decide (v = 0) || !outOfBounds v 15000 none)) := by
  obtain ⟨t, l, b⟩ := o
  simp only [createClientValidation, checkBounds]
  cases houtT : outOfBounds (t.getD 100) 16 (some 1000) <;>
    cases houtL : outOfBounds (l.getD 5000) 200 (some 30000) <;>
    simp [exceptOk]
  cases b with
  | none => simp [exceptOk]
  | some v =>
    by_cases hv : v = 0
    · simp [hv, exceptOk]
    · cases houtB : outOfBounds v 15000 none <;> simp [hv, houtB, exceptOk]

/-- C7 counterexample: a provided `backgroundKeepAliveTimeout` of 0 ms is below
the documented 15000 ms minimum, yet `createClient` accepts it without error —
the claim that every provided value below 15000 fails fast is false at 0. -/
theorem createClient_accepts_zero_backgroundKeepAlive :
    ((0 : Int) < 15000) ∧
      createClientValidation ⟨none, none, some 0⟩ = .ok (100, 5000, none) := by
  exact ⟨by decide, by rfl⟩

/-- C7 amended: `createClient` fails synchronously (in its validation prefix,
before any connection attempt) exactly when `throttle` (default 100) falls
outside [16, 1000], or `lostConnectionTimeout` (default 5000) falls outside
[200, 30000], or a provided *nonzero* `backgroundKeepAliveTimeout` is below
15000; a provided value of 0 is treated as absent (JS truthiness) and
accepted, and all in-bounds values, including the defaults, are accepted. -/
theorem createClientValidation_ok_iff (o : ClientNumericOptions) :
    exceptOk (createClientValidation o) = true ↔
      (16 ≤ o.throttle?.getD 100 ∧ o.throttle?.getD 100 ≤ 1000) ∧
      (200 ≤ o.lostConnectionTimeout?.getD 5000 ∧
        o.lostConnectionTimeout?.getD 5000 ≤ 30000) ∧
      (∀ v, o.backgroundKeepAliveTimeout? = some v → v ≠ 0 → 15000 ≤ v) := by
  rw [createClientValidation_exceptOk o]
  obtain ⟨t, l, b⟩ := o
  dsimp only
  cases b with
  | none =>
    simp [outOfBounds, not_lt]
  | some v =>
    simp [outOfBounds, not_lt]
    tauto

/-- Witness for `createClientValidation_ok_iff`: the all-defaults options are
accepted. -/
theorem createClientValidation_ok_iff_witness :
    exceptOk (createClientValidation ⟨none, none, none⟩) = true :=
  (createClientValidation_ok_iff ⟨none, none, none⟩).mpr
    ⟨⟨by decide, by decide⟩, ⟨by decide, by decide⟩, by intro v hv; simp at hv⟩

/-! ## WebSocket-wrapping Stream transport (transport/WebSocket.ts) -/

/-- `TransportReadyState` from transport/index.ts. -/
inductive TransportReadyState
  | CONNECTING
  | OPEN
  | CLOSING
  | CLOSED
  deriving DecidableEq, Repr

/-- A byte array: entries are 0..255. -/
abbrev Bytes := List Nat

/-- The observable state of a `WS` transport instance from
transport/WebSocket.ts: its `readyState`, and the list of payloads handed to
the underlying `WebSocket`'s `send` so far (in order). -/
structure WSInstance where
  readyState : TransportReadyState
  wsSent : List Bytes
  deriving DecidableEq, Repr

/-- `WS.send` from transport/WebSocket.ts: throws `Error("Transport not
open")` when `readyState` is not `OPEN` (handing nothing to the underlying
WebSocket), and otherwise forwards `data` unchanged to `this.ws.send`. -/
def wsSend (s : WSInstance) (data : Bytes) : Except String WSInstance :=
  if s.readyState ≠ TransportReadyState.OPEN then .error "Transport not open"
  else .ok { s with wsSent := s.wsSent ++ [data] }

/-- C10: while `readyState` is not `OPEN`, `send` throws
`Error("Transport not open")` and the underlying WebSocket receives nothing
(the thrown branch carries no state change at all); while `readyState` is
`OPEN`, the data is appended unchanged to what the underlying WebSocket's
`send` has received. -/
theorem wsSend_throws_unless_open (s : WSInstance) (data : Bytes) :
    (s.readyState ≠ TransportReadyState.OPEN →
        wsSend s data = .error "Transport not open") ∧
    (s.readyState = TransportReadyState.OPEN →
        wsSend s data = .ok ⟨TransportReadyState.OPEN, s.wsSent ++ [data]⟩) := by
  constructor
  · intro h
    simp [wsSend, h]
  · intro h
    obtain ⟨r, sent⟩ := s
    subst h
    simp [wsSend]

/-- Witness for `wsSend_throws_unless_open`: a CONNECTING transport rejects a
send, an OPEN transport forwards it. -/
theorem wsSend_throws_unless_open_witness :
    wsSend ⟨TransportReadyState.CONNECTING, []⟩ [1, 2] = .error "Transport not open" ∧
    wsSend ⟨TransportReadyState.OPEN, []⟩ [1, 2] =
      .ok ⟨TransportReadyState.OPEN, [[1, 2]]⟩ :=
  ⟨(wsSend_throws_unless_open ⟨TransportReadyState.CONNECTING, []⟩ [1, 2]).1
      (by decide),
    (wsSend_throws_unless_open ⟨TransportReadyState.OPEN, []⟩ [1, 2]).2 rfl⟩

/-! ## Channel lease protocol (client.ts, lines 162-231) -/

/-- A `ChannelInfo` heap object from client.ts: the channel's id together with
`info.unsubs`, the JS `Set` of outstanding `leave` closures, modelled as a
duplicate-free list of lease identities in insertion order. -/
structure ChannelInfo where
  chanId : String
  unsubs : List Nat
  deriving DecidableEq, Repr

/-- The channel bookkeeping state of one `createClient` instance: the heap of
`ChannelInfo` objects (a `leave` closure captures its `info` by reference, so
leases address infos by heap index), the `channelsById` registry, counters for
fresh heap indices and lease identities, and the list of `teardownChannel`
calls made so far (each such call destroys its channel). -/
structure ChannelRegistry where
  infos : List (Nat × ChannelInfo)
  channelsById : List (String × Nat)
  nextInfo : Nat
  nextLease : Nat
  torndown : List String
  deriving DecidableEq, Repr

/-- Association-list lookup (the JS `Map.get`): first entry with the key. -/
def lookupAssoc {α β : Type} [DecidableEq α] : List (α × β) → α → Option β
  | [], _ => none
  | p :: rest, a => if p.1 = a then some p.2 else lookupAssoc rest a

/-- Overwrite the heap entry at index `i`. -/
def setInfo (infos : List (Nat × ChannelInfo)) (i : Nat) (c : ChannelInfo) :
    List (Nat × ChannelInfo) :=
  infos.map fun p => if p.1 = i then (i, c) else p

/-- `leaseChannel` from client.ts: create a fresh self-destructing `leave`
function and add it to `info.unsubs`; returns the lease (heap index of the
captured `info`, plus the identity of the new `leave` closure). -/
def leaseChannel (st : ChannelRegistry) (i : Nat) : (Nat × Nat) × ChannelRegistry :=
  match lookupAssoc st.infos i with
  | none => ((i, st.nextLease), { st with nextLease := st.nextLease + 1 })
  | some info =>
      ((i, st.nextLease),
        { st with
            infos := setInfo st.infos i
              { info with unsubs := info.unsubs ++ [st.nextLease] }
            nextLease := st.nextLease + 1 })

/-- `join` from client.ts: lease the existing channel when `channelsById` has
the id, otherwise create a fresh channel, register it, and lease it. -/
def joinChannel (st : ChannelRegistry) (id : String) : (Nat × Nat) × ChannelRegistry :=
  match lookupAssoc st.channelsById id with
  | some i => leaseChannel st i
  | none =>
      let i := st.nextInfo
      leaseChannel
        { st with
            infos := st.infos ++ [(i, ⟨id, []⟩)]
            channelsById := st.channelsById ++ [(id, i)]
            nextInfo := st.nextInfo + 1 }
        i

/-- `teardownChannel` from client.ts: `channelsById.delete(channel.id)`
followed by `channel.destroy()` (a no-op in channel.ts).  `channelsById` never
holds two entries for one id, so the `Map.delete` is a filter here. -/
def teardownChannel (st : ChannelRegistry) (id : String) : ChannelRegistry :=
  { st with
      channelsById := st.channelsById.filter fun p => decide (p.1 ≠ id)
      torndown := st.torndown ++ [id] }

/-- One `leave` closure from `leaseChannel` in client.ts, invoked on the
current state.  Returns whether the "already called" warning was logged,
together with the updated state: when the closure's identity is still in the
captured `info.unsubs` it is removed, and if that leaves the set empty the
channel is torn down; otherwise only a warning is logged and nothing changes.
(The `none` heap branch is unreachable: a closure keeps its `info` alive.) -/
def leaveChannel (st : ChannelRegistry) (lease : Nat × Nat) : Bool × ChannelRegistry :=
  match lookupAssoc st.infos lease.1 with
  | none => (true, st)
  | some info =>
      if lease.2 ∈ info.unsubs then
        let info2 : ChannelInfo := { info with unsubs := info.unsubs.erase lease.2 }
        let st2 := { st with infos := setInfo st.infos lease.1 info2 }
        if info2.unsubs.isEmpty then (false, teardownChannel st2 info.chanId)
        else (false, st2)
      else (true, st)

/-- `getChannel` from client.ts: `channelsById.get(channelId)?.channel ?? null`,
modelled as the heap index of the registered channel, if any. -/
def getChannel (st : ChannelRegistry) (id : String) : Option Nat :=
  lookupAssoc st.channelsById id

/-- Calling the same `leave` closure `n` times in a row. -/
def leaveTimes (st : ChannelRegistry) (lease : Nat × Nat) : Nat → ChannelRegistry
  | 0 => st
  | n + 1 => (leaveChannel (leaveTimes st lease n) lease).2

/-- Looking up the overwritten index after `setInfo`. -/
theorem lookup_setInfo_self (infos : List (Nat × ChannelInfo)) (i : Nat)
    (c : ChannelInfo) :
    lookupAssoc (setInfo infos i c) i = (lookupAssoc infos i).map fun _ => c := by
  induction infos with
  | nil => rfl
  | cons p rest ih =>
      obtain ⟨k, v⟩ := p
      by_cases hk : k = i
      · subst hk
        simp [setInfo, lookupAssoc]
      · simp [setInfo, lookupAssoc, hk]
        simpa [setInfo] using ih

/-- Looking up a key after filtering out every entry with that key. -/
theorem lookupAssoc_filter_self {β : Type}
    (l : List (String × β)) (id : String) :
    lookupAssoc (l.filter fun p => decide (p.1 ≠ id)) id = none := by
  induction l with
  | nil => rfl
  | cons p rest ih =>
      by_cases h : p.1 = id
      · simpa [List.filter_cons, h] using ih
      · simpa [List.filter_cons, h, lookupAssoc] using ih

/-- A second call of the same `leave` closure is a warned no-op, provided the
captured lease set is duplicate-free (it is: JS `Set`s hold each closure once). -/
theorem leaveChannel_second_call_noop
    (st : ChannelRegistry) (i tok : Nat) (info : ChannelInfo)
    (hinfo : lookupAssoc st.infos i = some info)
    (hnd : info.unsubs.Nodup) :
    leaveChannel (leaveChannel st (i, tok)).2 (i, tok) =
      (true, (leaveChannel st (i, tok)).2) := by
  by_cases hmem : tok ∈ info.unsubs
  · have hlook2 :
        lookupAssoc (setInfo st.infos i { info with unsubs := info.unsubs.erase tok }) i =
          some { info with unsubs := info.unsubs.erase tok } := by
      rw [lookup_setInfo_self, hinfo]; rfl
    have hnotmem : tok ∉ info.unsubs.erase tok := hnd.not_mem_erase
    by_cases hempty : (info.unsubs.erase tok).isEmpty
    · simp [leaveChannel, teardownChannel, hinfo, hmem, hempty, hlook2, hnotmem]
    · simp [leaveChannel, teardownChannel, hinfo, hmem, hempty, hlook2, hnotmem]
  · simp [leaveChannel, hinfo, hmem]

/-- C6: per lease, `leave` is idempotent and destroys on the last release.
For every reachable registry state (captured by: the lease's `info` object is
on the heap and its lease set is duplicate-free):
(a) after the first call of a given `leave` closure, the state never changes
again, so calling it N > 1 times destroys the channel at most once;
(b) every call after the first returns with only the "already called" warning;
(c) when the closure's lease is outstanding, the channel is torn down by this
call exactly when it was the last outstanding lease, in which case the channel
is also removed from the registry (`getChannel` then returns null); when other
leases remain, nothing is torn down and the registry keeps the channel. -/
theorem leave_idempotent_and_last_lease_destroys
    (st : ChannelRegistry) (i tok : Nat) (info : ChannelInfo)
    (hinfo : lookupAssoc st.infos i = some info)
    (hnd : info.unsubs.Nodup) :
    (∀ n, 1 ≤ n → leaveTimes st (i, tok) n = (leaveChannel st (i, tok)).2) ∧
    (∀ n, 1 ≤ n →
      (leaveChannel (leaveTimes st (i, tok) n) (i, tok)).1 = true) ∧
    (tok ∈ info.unsubs →
      ((leaveChannel st (i, tok)).2.torndown = st.torndown ++ [info.chanId] ↔
          info.unsubs.erase tok = []) ∧
      (info.unsubs.erase tok = [] →
          getChannel (leaveChannel st (i, tok)).2 info.chanId = none) ∧
      (info.unsubs.erase tok ≠ [] →
          (leaveChannel st (i, tok)).2.torndown = st.torndown ∧
          (leaveChannel st (i, tok)).2.channelsById = st.channelsById)) := by
  have hfix := leaveChannel_second_call_noop st i tok info hinfo hnd
  have hiter : ∀ n, 1 ≤ n → leaveTimes st (i, tok) n = (leaveChannel st (i, tok)).2 := by
    intro n hn
    induction n with
    | zero => omega
    | succ m ih =>
        rcases Nat.eq_zero_or_pos m with h0 | hpos
        · subst h0
          simp [leaveTimes]
        · simp [leaveTimes, ih hpos, hfix]
  refine ⟨hiter, ?_, ?_⟩
  · intro n hn
    rw [hiter n hn, hfix]
  · intro hmem
    by_cases hempty : (info.unsubs.erase tok).isEmpty
    · have herase : info.unsubs.erase tok = [] := by
        simpa [List.isEmpty_iff] using hempty
      simp only [leaveChannel, hinfo, if_pos hmem, hempty, if_pos rfl]
      refine ⟨by simp [teardownChannel, herase], ?_, ?_⟩
      · intro _
        simp only [teardownChannel, getChannel]
        simpa using lookupAssoc_filter_self st.channelsById info.chanId
      · intro hne
        exact absurd herase hne
    · have herase : info.unsubs.erase tok ≠ [] := by
        simpa [List.isEmpty_iff] using hempty
      simp only [leaveChannel, hinfo, if_pos hmem]
      rw [if_neg (by simpa using hempty)]
      refine ⟨?_, ?_, ?_⟩
      · constructor
        · intro h
          exact absurd h (by simp)
        · intro h
          exact absurd h herase
      · intro h
        exact absurd h herase
      · intro _
        exact ⟨rfl, rfl⟩

/-- Witness for `leave_idempotent_and_last_lease_destroys`: one lease on one
channel; releasing it tears the channel down and empties the registry entry,
and the second call only warns. -/
theorem leave_idempotent_and_last_lease_destroys_witness :
    (leaveChannel
        (leaveChannel ⟨[(0, ⟨"room-1", [0]⟩)], [("room-1", 0)], 1, 1, []⟩ (0, 0)).2
        (0, 0)).1 = true ∧
    getChannel
        (leaveChannel ⟨[(0, ⟨"room-1", [0]⟩)], [("room-1", 0)], 1, 1, []⟩ (0, 0)).2
        "room-1" = none := by
  have h := leave_idempotent_and_last_lease_destroys
    ⟨[(0, ⟨"room-1", [0]⟩)], [("room-1", 0)], 1, 1, []⟩ 0 0 ⟨"room-1", [0]⟩
    (by rfl) (by decide)
  refine ⟨?_, ?_⟩
  · have := h.2.1 1 (by omega)
    simpa [leaveTimes] using this
  · exact (h.2.2 (by decide)).2.1 (by decide)

/-! ## The connection state machine (connection.ts, lines 79-841)

The machine configuration below (states, transition table, effects) is
translated from `createConnectionStateMachine` in connection.ts.  The generic
FSM engine it instantiates (`lib/fsm.ts`) is not part of this source tree;
its semantics — selector registration, exit-cleanup / transition-effect /
entry-hook ordering, cancellation of async entries and timed transitions on
state exit — are modelled from the specification of the FSM component
(spec section 4.3).  Asynchronous entry completions and timed-transition
firings are modelled as machine events that only apply in the state whose
entry started them (an async result delivered after the state was exited is
cancelled and discarded). -/

/-- The nine machine states from connection.ts. -/
inductive CState
  | idleInitial
  | idleFailed
  | idleZombie
  | authBusy
  | authBackoff
  | connectingBusy
  | connectingBackoff
  | okConnected
  | okAwaitingPong
  deriving DecidableEq, Repr

/-- Membership in the `@ok.*` state group. -/
def CState.isOk : CState → Bool
  | .okConnected => true
  | .okAwaitingPong => true
  | _ => false

/-- Membership in the `@idle.*` state group. -/
def CState.isIdle : CState → Bool
  | .idleInitial => true
  | .idleFailed => true
  | .idleZombie => true
  | _ => false

/-- The FSM `Context` from connection.ts.  A transport instance is an opaque
identity (`Nat`); `transport = none` is the null transport. -/
structure Ctx where
  successCount : Nat
  authValue : Option String
  transport : Option Nat
  backoffDelay : Nat
  deriving DecidableEq, Repr

/-- Why an async entry (`onEnterAsync`) failed, as discriminated by the
`onFail` handlers in connection.ts: a `StopRetrying` error, a transport
close event (`isCloseEvent`), or any other error/event. -/
inductive FailReason
  | stopRetrying (msg : String)
  | closeEvt (code : Int) (reason : String)
  | other (msg : String)
  deriving DecidableEq, Repr

/-- Machine events: the external `Event` union from connection.ts, plus the
internal completions — `authOk`/`authFail` for the `@auth.busy` async entry,
`connectOk`/`connectFail` for the `@connecting.busy` async entry, and `timer`
for the timed transition scheduled by the current back-off state.
`EXPLICIT_SOCKET_ERROR` carries the result of the handler's
`context.transport?.readyState === OPEN` probe (the ready state lives on the
transport object, outside the machine context). -/
inductive CEvent
  | CONNECT
  | RECONNECT
  | DISCONNECT
  | WINDOW_GOT_FOCUS
  | NAVIGATOR_ONLINE
  | NAVIGATOR_OFFLINE
  | PONG
  | PONG_TIMEOUT
  | EXPLICIT_SOCKET_ERROR (transportStillOpen : Bool)
  | EXPLICIT_SOCKET_CLOSE (code : Int) (reason : String)
  | authOk (token : String)
  | authFail (r : FailReason)
  | connectOk (socket : Nat)
  | connectFail (r : FailReason)
  | timer
  deriving DecidableEq, Repr

/-- A `PilarjsError` notified on the `onPilarjsError` observable by
`fireErrorEvent` in connection.ts. -/
structure Emitted where
  msg : String
  code : Int
  deriving DecidableEq, Repr

/-- A machine configuration: current state, context, and the list of
`PilarjsError`s emitted so far. -/
structure Mach where
  state : CState
  ctx : Ctx
  errors : List Emitted
  deriving DecidableEq, Repr

/-- The `increaseBackoffDelay` effect from connection.ts. -/
def increaseBackoffDelay (c : Ctx) : Ctx :=
  { c with backoffDelay := nextBackoffDelay c.backoffDelay BACKOFF_DELAYS }

/-- The transition table of `createConnectionStateMachine` from connection.ts:
given the current state, context and an event, the target state, the
transition effect on the context, and the `PilarjsError`s fired by the
effect — or `none` when the event is ignored (no transition).  Leaf-specific
transitions take precedence over the `"*"` wildcard (`RECONNECT`,
`DISCONNECT`); no leaf handles those two events, so the wildcard rows are the
fall-through arms.  The commented-out heartbeat transitions of `@ok.*` are
omitted, exactly as in the source. -/
def transition (s : CState) (ctx : Ctx) (e : CEvent) :
    Option (CState × (Ctx → Ctx) × List Emitted) :=
  match s, e with
  -- "@idle.*": CONNECT picks the target by whether an authValue is cached
  | .idleInitial, .CONNECT | .idleFailed, .CONNECT | .idleZombie, .CONNECT =>
      some (if ctx.authValue ≠ none then .connectingBusy else .authBusy, id, [])
  -- "@auth.backoff"
  | .authBackoff, .NAVIGATOR_ONLINE =>
      some (.authBusy, fun c => { c with backoffDelay := RESET_DELAY }, [])
  | .authBackoff, .timer => some (.authBusy, id, [])
  -- "@auth.busy" async entry: authenticate()
  | .authBusy, .authOk token =>
      some (.connectingBusy, fun c => { c with authValue := some token }, [])
  | .authBusy, .authFail r =>
      match r with
      | .stopRetrying msg => some (.idleFailed, id, [⟨msg, -1⟩])
      | _ => some (.authBackoff, increaseBackoffDelay, [])
  -- "@connecting.backoff"
  | .connectingBackoff, .NAVIGATOR_ONLINE =>
      some (.connectingBusy, fun c => { c with backoffDelay := RESET_DELAY }, [])
  | .connectingBackoff, .timer => some (.connectingBusy, id, [])
  -- "@connecting.busy" async entry: createTransport() + open
  | .connectingBusy, .connectOk socket =>
      some (.okConnected,
        fun c => { c with transport := some socket, backoffDelay := RESET_DELAY }, [])
  | .connectingBusy, .connectFail r =>
      match r with
      | .stopRetrying msg => some (.idleFailed, id, [⟨msg, -1⟩])
      | .closeEvt code reason => some (.idleFailed, id, [⟨reason, code⟩])
      | .other _ => some (.authBackoff, increaseBackoffDelay, [])
  -- "@idle.zombie"
  | .idleZombie, .WINDOW_GOT_FOCUS => some (.connectingBackoff, id, [])
  -- "@ok.*"
  | .okConnected, .EXPLICIT_SOCKET_ERROR stillOpen
  | .okAwaitingPong, .EXPLICIT_SOCKET_ERROR stillOpen =>
      if stillOpen then none
      else some (.connectingBackoff, increaseBackoffDelay, [])
  | .okConnected, .EXPLICIT_SOCKET_CLOSE _ _
  | .okAwaitingPong, .EXPLICIT_SOCKET_CLOSE _ _ =>
      some (.connectingBackoff, increaseBackoffDelay, [])
  -- "*" wildcard
  | _, .RECONNECT =>
      some (.authBackoff, fun c => { (increaseBackoffDelay c) with successCount := 0 }, [])
  | _, .DISCONNECT => some (.idleInitial, id, [])
  | _, _ => none

/-- One step of the machine, following the FSM spec's ordering for a taken
transition: (3) exit cleanups of the states being left — for `@ok.*` the
`onEnter("@ok.*")` cleanup tears down the transport and patches it back to
null — then (4) the transition's effects, then (5) entry hooks of the states
being entered — `onEnter("@idle.*")` resets `successCount` to 0, and the
`@ok.*` entry increments it.  An event with no matching transition is ignored
and changes nothing. -/
def step (m : Mach) (e : CEvent) : Mach :=
  match transition m.state m.ctx e with
  | none => m
  | some (target, effect, errs) =>
      let c1 := if m.state.isOk then { m.ctx with transport := none } else m.ctx
      let c2 := effect c1
      let c3 :=
        if target.isIdle then { c2 with successCount := 0 }
        else if target.isOk then { c2 with successCount := c2.successCount + 1 }
        else c2
      { state := target, ctx := c3, errors := m.errors ++ errs }

/-- The machine configuration right after `machine.start()`:
`@idle.initial` with the `initialContext` of connection.ts. -/
def initMach : Mach :=
  { state := .idleInitial
    ctx := { successCount := 0, authValue := none, transport := none,
             backoffDelay := RESET_DELAY }
    errors := [] }

/-- Run the machine over a sequence of events. -/
def runMach (evts : List CEvent) : Mach :=
  evts.foldl step initMach

/-- The C1 invariant is preserved by every step. -/
theorem step_preserves_transport_invariant (m : Mach) (e : CEvent)
    (h : m.ctx.transport.isSome = m.state.isOk) :
    (step m e).ctx.transport.isSome = (step m e).state.isOk := by
  obtain ⟨s, c, errs⟩ := m
  cases s <;> cases e <;>
    simp_all [step, transition, increaseBackoffDelay, CState.isOk, CState.isIdle] <;>
    first
      | assumption
      | (rename_i r; cases r <;>
          simp_all [step, transition, increaseBackoffDelay, CState.isOk, CState.isIdle])
      | (by_cases hav : c.authValue = none <;>
          simp_all [CState.isOk, CState.isIdle])

/-- C1: after `start`, for every sequence of events sent to the connection
manager's machine, the context's `transport` is non-null exactly when the
current state is `@ok.connected` or `@ok.awaiting-pong`: the transport is
assigned only by the effect of the `@connecting.busy` async entry's success
transition into `@ok.connected`, and the `@ok.*` exit cleanup closes the
transport and patches it back to null on every transition that leaves the
group. -/
theorem transport_iff_ok_state (evts : List CEvent) :
    (runMach evts).ctx.transport ≠ none ↔
      ((runMach evts).state = CState.okConnected ∨
        (runMach evts).state = CState.okAwaitingPong) := by
  have key : ∀ (l : List CEvent) (m : Mach), m.ctx.transport.isSome = m.state.isOk →
      (l.foldl step m).ctx.transport.isSome = (l.foldl step m).state.isOk := by
    intro l
    induction l with
    | nil => intro m h; exact h
    | cons e rest ih =>
        intro m h
        exact ih (step m e) (step_preserves_transport_invariant m e h)
  have h : (runMach evts).ctx.transport.isSome = (runMach evts).state.isOk :=
    key evts initMach rfl
  cases htr : (runMach evts).ctx.transport <;> cases hst : (runMach evts).state <;>
    simp_all [CState.isOk]

/-- Witness for `transport_iff_ok_state`: after connect, auth success and a
successful transport open, the machine is in `@ok.connected` and the
transport is non-null. -/
theorem transport_iff_ok_state_witness :
    (runMach [CEvent.CONNECT, CEvent.authOk "tok", CEvent.connectOk 7]).ctx.transport ≠
      none :=
  (transport_iff_ok_state [CEvent.CONNECT, CEvent.authOk "tok", CEvent.connectOk 7]).mpr
    (Or.inl (by rfl))

/-- C3: the failure dispositions of the `@connecting.busy` async entry
(`onEnterAsync("@connecting.busy")`'s `onFail` in connection.ts): a
`StopRetrying` reason sends the machine to `@idle.failed` and emits a
`PilarjsError` with the error's message and code -1; a transport close event
sends it to `@idle.failed` and emits a `PilarjsError` carrying the event's
reason as message and its code; any other reason sends it to `@auth.backoff`
with `backoffDelay` advanced one tier and emits nothing.  (Entering
`@idle.failed` also runs the `@idle.*` entry hook, resetting `successCount`.) -/
theorem connectingBusy_fail_dispositions (c : Ctx) (errs : List Emitted)
    (msg : String) (code : Int) (reason : String) :
    step ⟨.connectingBusy, c, errs⟩ (.connectFail (.stopRetrying msg)) =
      ⟨.idleFailed, { c with successCount := 0 }, errs ++ [⟨msg, -1⟩]⟩ ∧
    step ⟨.connectingBusy, c, errs⟩ (.connectFail (.closeEvt code reason)) =
      ⟨.idleFailed, { c with successCount := 0 }, errs ++ [⟨reason, code⟩]⟩ ∧
    step ⟨.connectingBusy, c, errs⟩ (.connectFail (.other msg)) =
      ⟨.authBackoff,
        { c with backoffDelay := nextBackoffDelay c.backoffDelay BACKOFF_DELAYS },
        errs⟩ := by
  refine ⟨?_, ?_, ?_⟩ <;>
    first
      | rfl
      | simp [step, transition, increaseBackoffDelay, CState.isIdle, CState.isOk]

/-- Witness for `connectingBusy_fail_dispositions`: scenario 4 of the spec,
a server refusal `close(code=4001, reason="bad token")` during
`@connecting.busy` lands in `@idle.failed` and emits
`{message: "bad token", code: 4001}`. -/
theorem connectingBusy_fail_dispositions_witness :
    step ⟨.connectingBusy, ⟨1, some "t", none, 249⟩, []⟩
        (.connectFail (.closeEvt 4001 "bad token")) =
      ⟨.idleFailed, ⟨0, some "t", none, 249⟩, [⟨"bad token", 4001⟩]⟩ :=
  (connectingBusy_fail_dispositions ⟨1, some "t", none, 249⟩ [] "x" 4001 "bad token").2.1

/-! ## MessagePack codec (lib/MessagePack.ts)

JS values are modelled by `MsgValue` below.  JS numbers are split exactly as
the encoder's `isFinite(data) && Math.floor(data) === data` test splits them:
integer-valued numbers are `num : Int` (exact; the source documents that
precision beyond 2^53 is lost, and every theorem below stays inside the exact
range), and non-integer or non-finite numbers are `float bs`, identified with
the big-endian IEEE-754 float64 byte pattern `bs` that `DataView.setFloat64`
writes for them.  `nan` is the JS `NaN` that decoder arithmetic produces from
out-of-range reads (`undefined` arithmetic).  A JS string is identified with
its UTF-8 byte sequence (`encodeUtf8` / `decodeUtf8` from lib/utils.ts are
mutually inverse on well-formed strings, so they are the identity under this
identification).  A JS `Date` is its `getTime()` value in ms. -/

/-- The JS values handled by the codec. -/
inductive MsgValue
  | nil
  | bool (b : Bool)
  | num (n : Int)
  | float (bs : List Nat)
  | nan
  | str (bs : List Nat)
  | bin (bs : List Nat)
  | arr (vs : List MsgValue)
  | map (kvs : List (List Nat × MsgValue))
  | undef
  | date (ms : Int)
  deriving Repr

/-- The UTF-8 bytes of an ASCII string (used for fixed JS property names). -/
def ascii (s : String) : List Nat := s.data.map Char.toNat

/-- The byte `(x >>> s) & 0xff` of a 32-bit-truncated integer `x`: JS
`ToUint32(x)` (reduce mod 2^32), shift right by `s`, and keep the low byte
(the `Uint8Array` store). -/
def i32byte (n : Int) (s : Nat) : Nat := ((n % (2 ^ 32 : Int)).toNat / 2 ^ s) % 256

/-- The byte `(len >>> s) & 0xff` of a nonnegative length. -/
def natByte (len : Nat) (s : Nat) : Nat := ((len % 2 ^ 32) / 2 ^ s) % 256

/-- The low byte of an integer as stored into a `Uint8Array` (JS `ToUint8`). -/
def toByte (n : Int) : Nat := (n % (256 : Int)).toNat

/-- `appendInt64` from lib/MessagePack.ts at an integer argument `value = n`
(the `int64` branch of `appendNumber`).  Nonnegative values are split
`hi = value / pow32`, `lo = value % pow32` and written with `>>>` shifts;
negative values are incremented, split on the absolute value, and both halves
are bitwise-NOT-ed: `~x = -ToInt32(x) - 1`, and the int32 wrap-around is
absorbed by the `ToUint32` inside the byte extraction.  All divisions below
are on nonnegative operands, where Lean's `Int` division agrees with the
truncation JS's `>>>`/`~` perform. -/
def appendInt64Int (n : Int) : List Nat :=
  if 0 ≤ n then
    let hi := n / (2 ^ 32 : Int)
    let lo := n % (2 ^ 32 : Int)
    [i32byte hi 24, i32byte hi 16, i32byte hi 8, i32byte hi 0,
     i32byte lo 24, i32byte lo 16, i32byte lo 8, i32byte lo 0]
  else
    let a := -(n + 1)
    let hi := -(a / (2 ^ 32 : Int)) - 1
    let lo := -(a % (2 ^ 32 : Int)) - 1
    [i32byte hi 24, i32byte hi 16, i32byte hi 8, i32byte hi 0,
     i32byte lo 24, i32byte lo 16, i32byte lo 8, i32byte lo 0]

/-- `appendInt64` from lib/MessagePack.ts at the fractional argument
`value = t / 1000` that `appendDate` passes (`t` in ms).  The JS computation
on the rational `t/1000` is carried out exactly: for `value >= 0` (iff
`t >= 0`), `hi = value / pow32` truncates (via `>>>`) to `t / (1000 * 2^32)`,
and `lo = value % pow32` truncates to `(t % (1000 * 2^32)) / 1000`; for
negative `value`, `value++` gives the rational `(t + 1000) / 1000`, whose JS
`Math.abs` is `|t + 1000| / 1000`, and the two truncated halves are NOT-ed
(`~x = -ToInt32(x) - 1`) as in the integer case.  (All divisions below are on
nonnegative operands, where `Int` division is the JS truncation.) -/
def appendInt64Sec (t : Int) : List Nat :=
  if 0 ≤ t then
    let hi := t / (1000 * 2 ^ 32 : Int)
    let lo := (t % (1000 * 2 ^ 32 : Int)) / 1000
    [i32byte hi 24, i32byte hi 16, i32byte hi 8, i32byte hi 0,
     i32byte lo 24, i32byte lo 16, i32byte lo 8, i32byte lo 0]
  else
    let a : Int := (t + 1000).natAbs
    let hi := -(a / (1000 * 2 ^ 32 : Int)) - 1
    let lo := -((a % (1000 * 2 ^ 32 : Int)) / 1000) - 1
    [i32byte hi 24, i32byte hi 16, i32byte hi 8, i32byte hi 0,
     i32byte lo 24, i32byte lo 16, i32byte lo 8, i32byte lo 0]

/-- `appendNumber` from lib/MessagePack.ts, integer branch (a `num` value
always passes the `isFinite && Math.floor === id` test).  The two 64-bit
comparison literals `0xffffffffffffffff` and `0x7fffffffffffffff` are JS
float64 literals and are therefore exactly 2^64 and 2^63;
`-0x8000000000000000` is exactly -2^63. -/
def appendNumber (n : Int) : List Nat :=
  if 0 ≤ n ∧ n ≤ 0x7f then [n.toNat]
  else if n < 0 ∧ -0x20 ≤ n then [toByte n]
  else if 0 < n ∧ n ≤ 0xff then [0xcc, n.toNat]
  else if -0x80 ≤ n ∧ n ≤ 0x7f then [0xd0, toByte n]
  else if 0 < n ∧ n ≤ 0xffff then [0xcd, i32byte n 8, toByte n]
  else if -0x8000 ≤ n ∧ n ≤ 0x7fff then [0xd1, i32byte n 8, toByte n]
  else if 0 < n ∧ n ≤ 0xffffffff then
    [0xce, i32byte n 24, i32byte n 16, i32byte n 8, toByte n]
  else if -0x80000000 ≤ n ∧ n ≤ 0x7fffffff then
    [0xd2, i32byte n 24, i32byte n 16, i32byte n 8, toByte n]
  else if 0 < n ∧ n ≤ 2 ^ 64 then
    -- uint64: hi = data / pow32, lo = data % pow32 (nonnegative, so the
    -- `>>>` truncations are these divisions); the source writes tag 0xd3 here
    0xd3 :: (let hi := n / (2 ^ 32 : Int)
             let lo := n % (2 ^ 32 : Int)
             [i32byte hi 24, i32byte hi 16, i32byte hi 8, i32byte hi 0,
              i32byte lo 24, i32byte lo 16, i32byte lo 8, i32byte lo 0])
  else if -(2 ^ 63) ≤ n ∧ n ≤ 2 ^ 63 then 0xd3 :: appendInt64Int n
  else if n < 0 then [0xd3, 0x80, 0, 0, 0, 0, 0, 0, 0]
  else [0xcf, 0xff, 0xff, 0xff, 0xff, 0xff, 0xff, 0xff, 0xff]

/-- The string header of `appendString` from lib/MessagePack.ts. -/
def strHeader (len : Nat) : List Nat :=
  if len ≤ 0x1f then [0xa0 + len]
  else if len ≤ 0xff then [0xd9, len]
  else if len ≤ 0xffff then [0xda, natByte len 8, natByte len 0]
  else [0xdb, natByte len 24, natByte len 16, natByte len 8, natByte len 0]

/-- The array header of `appendArray` from lib/MessagePack.ts. -/
def arrHeader (len : Nat) : List Nat :=
  if len ≤ 0xf then [0x90 + len]
  else if len ≤ 0xffff then [0xdc, natByte len 8, natByte len 0]
  else [0xdd, natByte len 24, natByte len 16, natByte len 8, natByte len 0]

/-- The byte-array header of `appendBinArray` from lib/MessagePack.ts (note
the source uses `bin 8` only for lengths up to 15). -/
def binHeader (len : Nat) : List Nat :=
  if len ≤ 0xf then [0xc4, len]
  else if len ≤ 0xffff then [0xc5, natByte len 8, natByte len 0]
  else [0xc6, natByte len 24, natByte len 16, natByte len 8, natByte len 0]

/-- The map header of `appendObject` from lib/MessagePack.ts.  The length is
`Object.keys(data).length` — counted before the per-pair `undefined` filter. -/
def mapHeader (len : Nat) : List Nat :=
  if len ≤ 0xf then [0x80 + len]
  else if len ≤ 0xffff then [0xde, natByte len 8, natByte len 0]
  else [0xdf, natByte len 24, natByte len 16, natByte len 8, natByte len 0]

/-- `appendDate` from lib/MessagePack.ts, on `t = data.getTime()` (ms).
`data.getMilliseconds()` is `t mod 1000` (time-zone offsets are whole
seconds), and `sec = t / 1000` is a possibly fractional JS number: the
branch tests `0 <= sec < 2^32` and `0 <= sec < 2^34` are phrased on `t`
(they agree on the rational `t/1000`), and each `sec >>> k` byte extraction
truncates `sec` first, which for `t >= 0` is the `Int` division `t / 1000`. -/
def appendDate (t : Int) : List Nat :=
  let ms := t % (1000 : Int)
  if ms = 0 ∧ 0 ≤ t ∧ t < 2 ^ 32 * 1000 then
    -- 32-bit seconds (sec is an exact integer here)
    let sec := t / 1000
    [0xd6, 0xff, i32byte sec 24, i32byte sec 16, i32byte sec 8, i32byte sec 0]
  else if 0 ≤ t ∧ t < 2 ^ 34 * 1000 then
    -- 30-bit nanoseconds, 34-bit seconds; the fifth payload byte is
    -- `((ns << 2) >>> 0) | (sec / pow32)` truncated to a byte on store
    let ns := ms.toNat * 1000000
    let sec := t / 1000
    [0xd7, 0xff, natByte ns 22, natByte ns 14, natByte ns 6,
     (((ns * 4) % 2 ^ 32) ||| (t / (1000 * 2 ^ 32)).toNat) % 256,
     i32byte sec 24, i32byte sec 16, i32byte sec 8, i32byte sec 0]
  else
    -- 32-bit nanoseconds, 64-bit seconds, negative values allowed
    let ns := ms.toNat * 1000000
    [0xc7, 12, 0xff, natByte ns 24, natByte ns 16, natByte ns 8, natByte ns 0] ++
      appendInt64Sec t

mutual

/-- `encode` (the `append` dispatcher) from lib/MessagePack.ts.  Caller
supplied byte lists (string/binary/float payloads) are wrapped mod 256, as
the `Uint8Array` stores of `appendBytes` do. -/
def encode : MsgValue → List Nat
  | .undef => [0xc0]
  | .nil => [0xc0]
  | .bool b => [if b then 0xc3 else 0xc2]
  | .num n => appendNumber n
  | .float bs => 0xcb :: bs.map (· % 256)
  | .nan => [0xcb, 0x7f, 0xf8, 0, 0, 0, 0, 0, 0]
  | .str bs => strHeader bs.length ++ bs.map (· % 256)
  | .bin bs => binHeader bs.length ++ bs.map (· % 256)
  | .arr vs => arrHeader vs.length ++ encodeList vs
  | .map kvs => mapHeader kvs.length ++ encodePairs kvs
  | .date t => appendDate t

/-- The element loop of `appendArray`. -/
def encodeList : List MsgValue → List Nat
  | [] => []
  | v :: rest => encode v ++ encodeList rest

/-- The key/value loop of `appendObject`: a pair whose value is `undefined`
is skipped entirely; otherwise the key is appended as a string, then the
value. -/
def encodePairs : List (List Nat × MsgValue) → List Nat
  | [] => []
  | (k, v) :: rest =>
      match v with
      | .undef => encodePairs rest
      | _ => (strHeader k.length ++ k.map (· % 256)) ++ encode v ++ encodePairs rest

end

/-! ### Decoder (`decode` / `read` from lib/MessagePack.ts)

Decoder positions and accumulated numbers are `Option Int`, with `none`
standing for JS `NaN`: an out-of-range `Uint8Array` read yields `undefined`,
and arithmetic on `undefined` yields `NaN`, which then propagates.  The
decoder's recursion is driven by fuel: each nesting level consumes at least
its tag byte before recursing, so nesting deeper than the input length is
impossible and the fuel `decode` supplies can never run out. -/

/-- JS number addition where `none` is `NaN`. -/
def addOpt : Option Int → Option Int → Option Int
  | some a, some b => some (a + b)
  | _, _ => none

/-- `array[pos]` on a `Uint8Array`: `undefined` (here `none`) when the index
is `NaN`, negative, or past the end. -/
def byteAt (a : List Nat) : Option Int → Option Nat
  | none => none
  | some i => if 0 ≤ i then a.get? i.toNat else none

/-- How many iterations `while (size-- > 0)` runs: zero for `NaN` and
non-positive sizes. -/
def jsCount : Option Int → Nat
  | none => 0
  | some s => s.toNat

/-- `ToIntegerOrInfinity` plus the index clamping of `slice`/`subarray`:
`NaN` becomes 0, a negative index counts from the end, and everything is
clamped to the array length. -/
def toIdx (len : Nat) : Option Int → Nat
  | none => 0
  | some i => if i < 0 then ((len : Int) + i).toNat else min i.toNat len

/-- `array.slice(pos, pos + size)` / `array.subarray(pos, pos + size)`. -/
def jsSub (a : List Nat) (pos size : Option Int) : List Nat :=
  let st := toIdx a.length pos
  let en := toIdx a.length (addOpt pos size)
  (a.drop st).take (en - st)

/-- The accumulation loop shared by `readUInt` and the tail of `readInt`:
`value = value * 256 + array[pos++]`, `NaN`-propagating. -/
def readUIntAux (a : List Nat) : Nat → Option Int → Option Int → Option Int × Option Int
  | 0, value, pos => (value, pos)
  | size + 1, value, pos =>
      let value2 : Option Int :=
        match value, byteAt a pos with
        | some v, some b => some (v * 256 + b)
        | _, _ => none
      readUIntAux a size value2 (addOpt pos (some 1))

/-- `readUInt` from lib/MessagePack.ts: big-endian accumulation (exact here;
the JS float accumulation loses precision beyond 2^53, the documented integer
caveat, outside every theorem below). -/
def readUInt (a : List Nat) (size : Nat) (pos : Option Int) :
    Option Int × Option Int :=
  readUIntAux a size (some 0) pos

/-- `readInt` from lib/MessagePack.ts: like `readUInt`, but the first byte's
most significant bit counts as -2^7 instead of 2^7.  On an out-of-range first
read the bitwise ops `byte & 0x7f` and `byte & 0x80` turn `undefined` into 0. -/
def readInt (a : List Nat) (size : Nat) (pos : Option Int) :
    Option Int × Option Int :=
  match size with
  | 0 => (some 0, pos)
  | s + 1 =>
      let v0 : Int :=
        match byteAt a pos with
        | some b => (b % 128 : Nat) - (if 128 ≤ b then 128 else 0)
        | none => 0
      readUIntAux a s (some v0) (addOpt pos (some 1))

/-- Build a big-endian float64 byte pattern from a sign bit, an 11-bit
exponent and a 52-bit mantissa. -/
def mkF64 (sign e m : Nat) : List Nat :=
  [sign * 128 + e / 16, e % 16 * 16 + m / 2 ^ 48,
   m / 2 ^ 40 % 256, m / 2 ^ 32 % 256, m / 2 ^ 24 % 256,
   m / 2 ^ 16 % 256, m / 2 ^ 8 % 256, m % 256]

/-- The JS number `DataView.getFloat64` returns for a big-endian byte
pattern, as a `MsgValue`: an integer-valued double is a `num`, `NaN` is
`nan`, and every other double (non-integral or infinite) keeps its byte
pattern as `float`. -/
def classifyF64 (bytes : List Nat) : MsgValue :=
  match bytes with
  | [b0, b1, b2, b3, b4, b5, b6, b7] =>
      let sign := b0 / 128
      let e := b0 % 128 * 16 + b1 / 16
      let m := b1 % 16 * 2 ^ 48 + b2 * 2 ^ 40 + b3 * 2 ^ 32 + b4 * 2 ^ 24 +
        b5 * 2 ^ 16 + b6 * 2 ^ 8 + b7
      if e = 2047 then (if m = 0 then .float bytes else .nan)
      else if e = 0 then (if m = 0 then .num 0 else .float bytes)
      else
        let mfull := 2 ^ 52 + m
        if 1075 ≤ e then
          .num ((if sign = 1 then -1 else 1) * (mfull * 2 ^ (e - 1075) : Nat))
        else if 2 ^ (1075 - e) ∣ mfull then
          .num ((if sign = 1 then -1 else 1) * (mfull / 2 ^ (1075 - e) : Nat))
        else .float bytes
  | _ => .float bytes

/-- The JS number `DataView.getFloat32` returns (a float32 widened exactly to
a double), as a `MsgValue`: integer values are `num`, `NaN` is `nan`, other
values are re-expressed as float64 byte patterns. -/
def classifyF32 (bytes : List Nat) : MsgValue :=
  match bytes with
  | [b0, b1, b2, b3] =>
      let sign := b0 / 128
      let e := b0 % 128 * 2 + b1 / 128
      let m := b1 % 128 * 2 ^ 16 + b2 * 2 ^ 8 + b3
      if e = 255 then (if m = 0 then .float (mkF64 sign 2047 0) else .nan)
      else if e = 0 then
        if m = 0 then .num 0
        else
          -- subnormal: m * 2^-149 with 2^s <= m < 2^(s+1), never integral
          let s := Nat.log2 m
          .float (mkF64 sign (s + 874) ((m - 2 ^ s) * 2 ^ (52 - s)))
      else
        let mfull := 2 ^ 23 + m
        if 150 ≤ e then
          .num ((if sign = 1 then -1 else 1) * (mfull * 2 ^ (e - 150) : Nat))
        else if 2 ^ (150 - e) ∣ mfull then
          .num ((if sign = 1 then -1 else 1) * (mfull / 2 ^ (150 - e) : Nat))
        else .float (mkF64 sign (e + 896) (m * 2 ^ 29))
  | _ => .float bytes

/-- `readFloat` from lib/MessagePack.ts: `new DataView(array.buffer, pos +
array.byteOffset, size)` throws a `RangeError` when the window does not fit
(`ToIndex(NaN)` is 0; a negative offset also throws); otherwise `getFloat32`
/ `getFloat64` reads `size` big-endian bytes and `pos += size`. -/
def readFloat (a : List Nat) (size : Nat) (pos : Option Int) :
    Except String (MsgValue × Option Int) :=
  let off : Int := match pos with | none => 0 | some i => i
  if off < 0 ∨ (a.length : Int) < off + size then
    .error "RangeError: Offset is outside the bounds of the DataView"
  else
    let bytes := (a.drop off.toNat).take size
    let pos2 := addOpt pos (some size)
    if size = 4 then .ok (classifyF32 bytes, pos2)
    else .ok (classifyF64 bytes, pos2)

/-- Truncating division toward zero for a positive divisor: what `new
Date(v)` (`TimeClip` via `ToIntegerOrInfinity`) does to a fractional time
value. -/
def tdivInt (num den : Int) : Int :=
  if 0 ≤ num then num / den else -(-num / den)

/-- `readExtDate` from lib/MessagePack.ts.  The reconstructed time value is
`sec * 1000 + ns / 1000000`, carried out exactly over the integers and
truncated toward zero by the `Date` constructor. -/
def readExtDate (a : List Nat) (data : List Nat) (pos : Option Int) :
    Except String (MsgValue × Option Int) :=
  if data.length = 4 then
    let sec : Nat := data.getD 0 0 * 2 ^ 24 + data.getD 1 0 * 2 ^ 16 +
      data.getD 2 0 * 2 ^ 8 + data.getD 3 0
    .ok (.date ((sec : Int) * 1000), pos)
  else if data.length = 8 then
    let ns : Nat := data.getD 0 0 * 2 ^ 22 + data.getD 1 0 * 2 ^ 14 +
      data.getD 2 0 * 2 ^ 6 + data.getD 3 0 / 4
    let sec : Nat := data.getD 3 0 % 4 * 2 ^ 32 + data.getD 4 0 * 2 ^ 24 +
      data.getD 5 0 * 2 ^ 16 + data.getD 6 0 * 2 ^ 8 + data.getD 7 0
    .ok (.date (((sec * 1000000000 + ns) / 1000000 : Nat) : Int), pos)
  else if data.length = 12 then
    let ns : Nat := data.getD 0 0 * 2 ^ 24 + data.getD 1 0 * 2 ^ 16 +
      data.getD 2 0 * 2 ^ 8 + data.getD 3 0
    let r := readInt a 8 (addOpt pos (some (-8)))
    match r.1 with
    | some sec => .ok (.date (tdivInt (sec * 1000000000 + (ns : Int)) 1000000), r.2)
    | none => .ok (.nan, r.2)
  else .error "Invalid data length for a date value."

/-- The property key a decoded map key coerces to (JS `ToPropertyKey`).  The
encoder only ever emits string keys; the scalar shapes cover foreign inputs,
with the generic object form as the remaining fallback. -/
def jsKeyBytes : MsgValue → List Nat
  | .str bs => bs
  | .num n => ascii (toString n)
  | .bool true => ascii "true"
  | .bool false => ascii "false"
  | .nil => ascii "null"
  | .nan => ascii "NaN"
  | _ => ascii "[object Object]"

/-- `numOrNan`: the `MsgValue` of a `readUInt`/`readInt` result. -/
def numOrNan : Option Int → MsgValue
  | some v => .num v
  | none => .nan

/-- `readExt` from lib/MessagePack.ts, once the size is resolved: read the
type byte, read `size` payload bytes, and either decode a timestamp
(type 255) or return the `{type, data}` record. -/
def readExtSized (a : List Nat) (size pos : Option Int) :
    Except String (MsgValue × Option Int) :=
  let r := readUInt a 1 pos
  let data := jsSub a r.2 size
  let pos3 := addOpt r.2 size
  match r.1 with
  | some 255 => readExtDate a data pos3
  | ty => .ok (.map [(ascii "type", numOrNan ty), (ascii "data", .bin data)], pos3)

/-- `readStr` from lib/MessagePack.ts, once the size is resolved:
`decodeUtf8(array.slice(start, pos))` after `pos += size`. -/
def readStrSized (a : List Nat) (size pos : Option Int) : MsgValue × Option Int :=
  (.str (jsSub a pos size), addOpt pos size)

/-- `readBin` from lib/MessagePack.ts, once the size is resolved:
`array.subarray(pos, pos + size)` and `pos += size`. -/
def readBinSized (a : List Nat) (size pos : Option Int) : MsgValue × Option Int :=
  (.bin (jsSub a pos size), addOpt pos size)

/-- The element loop of `readArray`: run the value reader `size` times. -/
def readLoop (f : Option Int → Except String (MsgValue × Option Int)) :
    Nat → Option Int → Except String (List MsgValue × Option Int)
  | 0, pos => .ok ([], pos)
  | n + 1, pos => do
      let (v, pos2) ← f pos
      let (vs, pos3) ← readLoop f n pos2
      .ok (v :: vs, pos3)

/-- The key/value loop of `readMap`: `data[read()] = read()`, `size` times. -/
def readPairsLoop (f : Option Int → Except String (MsgValue × Option Int)) :
    Nat → Option Int → Except String (List (List Nat × MsgValue) × Option Int)
  | 0, pos => .ok ([], pos)
  | n + 1, pos => do
      let (k, pos2) ← f pos
      let (v, pos3) ← f pos2
      let (kvs, pos4) ← readPairsLoop f n pos3
      .ok ((jsKeyBytes k, v) :: kvs, pos4)

/-- The `read` tag dispatcher from lib/MessagePack.ts.  An out-of-range tag
read is `undefined`, which matches none of the tag ranges and falls through
to the trailing `throw`; every in-range byte 0..255 is handled.  The fuel
only bounds container nesting; see the section comment. -/
def readVal (a : List Nat) : Nat → Option Int → Except String (MsgValue × Option Int)
  | 0, _ => .error "out of fuel"
  | fuel + 1, pos =>
      match byteAt a pos with
      | none => .error "Invalid byte value in the MessagePack binary data"
      | some byte =>
          let pos1 := addOpt pos (some 1)
          if byte ≤ 0x7f then .ok (.num byte, pos1)
          else if byte ≤ 0x8f then
            (readPairsLoop (readVal a fuel) (byte - 0x80) pos1).map
              fun r => (.map r.1, r.2)
          else if byte ≤ 0x9f then
            (readLoop (readVal a fuel) (byte - 0x90) pos1).map
              fun r => (.arr r.1, r.2)
          else if byte ≤ 0xbf then .ok (readStrSized a (some ((byte : Int) - 0xa0)) pos1)
          else if byte = 0xc0 then .ok (.nil, pos1)
          else if byte = 0xc1 then .error "Invalid byte code 0xc1 found."
          else if byte = 0xc2 then .ok (.bool false, pos1)
          else if byte = 0xc3 then .ok (.bool true, pos1)
          else if byte = 0xc4 then
            let r := readUInt a 1 pos1
            .ok (readBinSized a r.1 r.2)
          else if byte = 0xc5 then
            let r := readUInt a 2 pos1
            .ok (readBinSized a r.1 r.2)
          else if byte = 0xc6 then
            let r := readUInt a 4 pos1
            .ok (readBinSized a r.1 r.2)
          else if byte = 0xc7 then
            let r := readUInt a 1 pos1
            readExtSized a r.1 r.2
          else if byte = 0xc8 then
            let r := readUInt a 2 pos1
            readExtSized a r.1 r.2
          else if byte = 0xc9 then
            let r := readUInt a 4 pos1
            readExtSized a r.1 r.2
          else if byte = 0xca then readFloat a 4 pos1
          else if byte = 0xcb then readFloat a 8 pos1
          else if byte = 0xcc then
            let r := readUInt a 1 pos1
            .ok (numOrNan r.1, r.2)
          else if byte = 0xcd then
            let r := readUInt a 2 pos1
            .ok (numOrNan r.1, r.2)
          else if byte = 0xce then
            let r := readUInt a 4 pos1
            .ok (numOrNan r.1, r.2)
          else if byte = 0xcf then
            let r := readUInt a 8 pos1
            .ok (numOrNan r.1, r.2)
          else if byte = 0xd0 then
            let r := readInt a 1 pos1
            .ok (numOrNan r.1, r.2)
          else if byte = 0xd1 then
            let r := readInt a 2 pos1
            .ok (numOrNan r.1, r.2)
          else if byte = 0xd2 then
            let r := readInt a 4 pos1
            .ok (numOrNan r.1, r.2)
          else if byte = 0xd3 then
            let r := readInt a 8 pos1
            .ok (numOrNan r.1, r.2)
          else if byte = 0xd4 then readExtSized a (some 1) pos1
          else if byte = 0xd5 then readExtSized a (some 2) pos1
          else if byte = 0xd6 then readExtSized a (some 4) pos1
          else if byte = 0xd7 then readExtSized a (some 8) pos1
          else if byte = 0xd8 then readExtSized a (some 16) pos1
          else if byte = 0xd9 then
            let r := readUInt a 1 pos1
            .ok (readStrSized a r.1 r.2)
          else if byte = 0xda then
            let r := readUInt a 2 pos1
            .ok (readStrSized a r.1 r.2)
          else if byte = 0xdb then
            let r := readUInt a 4 pos1
            .ok (readStrSized a r.1 r.2)
          else if byte = 0xdc then
            let r := readUInt a 2 pos1
            (readLoop (readVal a fuel) (jsCount r.1) r.2).map
              fun s => (.arr s.1, s.2)
          else if byte = 0xdd then
            let r := readUInt a 4 pos1
            (readLoop (readVal a fuel) (jsCount r.1) r.2).map
              fun s => (.arr s.1, s.2)
          else if byte = 0xde then
            let r := readUInt a 2 pos1
            (readPairsLoop (readVal a fuel) (jsCount r.1) r.2).map
              fun s => (.map s.1, s.2)
          else if byte = 0xdf then
            let r := readUInt a 4 pos1
            (readPairsLoop (readVal a fuel) (jsCount r.1) r.2).map
              fun s => (.map s.1, s.2)
          else .ok (.num ((byte : Int) - 256), pos1)

/-- `decode` from lib/MessagePack.ts: rejects the empty array, then reads one
value from position 0 (trailing bytes are ignored, exactly as in the source). -/
def decode (a : List Nat) : Except String MsgValue :=
  if a.length = 0 then
    .error "Invalid argument: The byte array to decode is empty."
  else (readVal a (a.length + 1) (some 0)).map (·.1)

/-! ### The codec's supported value set

`supported` delimits the values within the codec's supported type set for
which the encoding is lossless, with the caveats the source itself sets:
integers within the 2^53-exact range (the high/low split loses precision
beyond that), strings/byte arrays/containers within the length range of their
widest header, floats that are genuine non-integral finite doubles (their
byte pattern is what the encoder writes), maps as JS objects (string keys,
no duplicates, and no `undefined` values — `undefined` is not in the
supported type set), and timestamps within the JS `Date` range.  Negative
timestamps with fractional seconds at or below -1000 ms are excluded: the
codec shifts them by the lost NOT-ed second (shown separately below). -/

/-- `true` exactly on the `float` constructor. -/
def isFloatVal : MsgValue → Bool
  | .float _ => true
  | _ => false

mutual

/-- Membership in the codec's lossless supported set (see section comment). -/
def supported : MsgValue → Bool
  | .nil => true
  | .bool _ => true
  | .num n => decide (-(2 ^ 53 : Int) ≤ n ∧ n ≤ 2 ^ 53)
  | .float bs => decide (bs.length = 8) && bs.all (· < 256) &&
      isFloatVal (classifyF64 bs)
  | .nan => false
  | .str bs => decide (bs.length < 2 ^ 32) && bs.all (· < 256)
  | .bin bs => decide (bs.length < 2 ^ 32) && bs.all (· < 256)
  | .arr vs => decide (vs.length < 2 ^ 32) && supportedList vs
  | .map kvs => decide (kvs.length < 2 ^ 32) &&
      decide ((kvs.map Prod.fst).Nodup) && supportedPairs kvs
  | .undef => false
  | .date t =>
      decide (-8640000000000000 ≤ t ∧ t ≤ 8640000000000000) &&
      (decide (0 ≤ t) || decide ((1000 : Int) ∣ t) || decide (-1000 < t))

/-- Elementwise `supported`. -/
def supportedList : List MsgValue → Bool
  | [] => true
  | v :: rest => supported v && supportedList rest

/-- Pairwise `supported`: string keys in range, values supported and not
`undefined`. -/
def supportedPairs : List (List Nat × MsgValue) → Bool
  | [] => true
  | (k, v) :: rest =>
      decide (k.length < 2 ^ 32) && k.all (· < 256) &&
      !(match v with | .undef => true | _ => false) &&
      supported v && supportedPairs rest

end

/-! ### Round-trip lemmas -/

/-- Reading the byte right after a prefix. -/
theorem byteAt_append (pre : List Nat) (b : Nat) (post : List Nat) :
    byteAt (pre ++ b :: post) (some (pre.length : Int)) = some b := by
  simp only [byteAt]
  rw [if_pos (by omega : (0 : Int) ≤ (pre.length : Int))]
  have h : ((pre.length : Int)).toNat = pre.length := by omega
  rw [h]
  simp only [List.get?_eq_getElem?]
  rw [List.getElem?_append_right (Nat.le_refl _)]
  simp

/-- `read` dispatch at tag 0xcf. -/
theorem readVal_tag_cf (a : List Nat) (fuel : Nat) (pos : Option Int)
    (h : byteAt a pos = some 0xcf) :
    readVal a (fuel + 1) pos = .ok (numOrNan (readUInt a 8 (addOpt pos (some 1))).1, (readUInt a 8 (addOpt pos (some 1))).2) := by
  simp only [readVal, h]
  iterate 19 rw [if_neg (by omega)]
  simp

/-- `Except.bind` on an `ok` value. -/
theorem exbind_ok {α β : Type} (a : α) (g : α → Except String β) :
    (Except.ok a >>= g) = g a := rfl

/-- `read` dispatch at tag 0xc1: the decoder's dedicated rejection. -/
theorem readVal_tag_c1 (a : List Nat) (fuel : Nat) (pos : Option Int)
    (h : byteAt a pos = some 0xc1) :
    readVal a (fuel + 1) pos = .error "Invalid byte code 0xc1 found." := by
  simp only [readVal, h]
  iterate 5 rw [if_neg (by omega)]
  simp

/-- C9: the decoder rejects every input whose tag byte is 0xc1 and the empty
input; and it rejects every truncation that starves a tag read: a tag read at
any position at or past the end of the array errors, an erroring nested read
propagates through every error path of the element loop and the key/value
loop, and an erroring top-level read propagates through `decode` — so any
truncated input whose missing bytes would be consumed as tags is rejected
(amended: truncation inside a size-guided payload is not rejected — see the
counterexample). -/
theorem decode_c1_and_tag_truncation :
    (∀ rest : List Nat, decode (0xc1 :: rest) =
        .error "Invalid byte code 0xc1 found.") ∧
    decode [] = .error "Invalid argument: The byte array to decode is empty." ∧
    (∀ (a : List Nat) (fuel : Nat) (p : Int), (a.length : Int) ≤ p →
        readVal a (fuel + 1) (some p) =
          .error "Invalid byte value in the MessagePack binary data") ∧
    (∀ (f : Option Int → Except String (MsgValue × Option Int)) (n : Nat)
        (pos : Option Int) (e : String), f pos = .error e →
        readLoop f (n + 1) pos = .error e) ∧
    (∀ (f : Option Int → Except String (MsgValue × Option Int)) (n : Nat)
        (pos pos2 : Option Int) (v : MsgValue) (e : String),
        f pos = .ok (v, pos2) → readLoop f n pos2 = .error e →
        readLoop f (n + 1) pos = .error e) ∧
    (∀ (f : Option Int → Except String (MsgValue × Option Int)) (n : Nat)
        (pos : Option Int) (e : String), f pos = .error e →
        readPairsLoop f (n + 1) pos = .error e) ∧
    (∀ (f : Option Int → Except String (MsgValue × Option Int)) (n : Nat)
        (pos pos2 : Option Int) (k : MsgValue) (e : String),
        f pos = .ok (k, pos2) → f pos2 = .error e →
        readPairsLoop f (n + 1) pos = .error e) ∧
    (∀ (f : Option Int → Except String (MsgValue × Option Int)) (n : Nat)
        (pos pos2 pos3 : Option Int) (k v : MsgValue) (e : String),
        f pos = .ok (k, pos2) → f pos2 = .ok (v, pos3) →
        readPairsLoop f n pos3 = .error e →
        readPairsLoop f (n + 1) pos = .error e) ∧
    (∀ (a : List Nat) (e : String), a ≠ [] →
        readVal a (a.length + 1) (some 0) = .error e → decode a = .error e) := by
  refine ⟨?_, rfl, ?_, ?_, ?_, ?_, ?_, ?_, ?_⟩
  · intro rest
    have hb : byteAt (0xc1 :: rest) (some 0) = some 0xc1 := by
      simpa using byteAt_append [] 0xc1 rest
    simp only [decode, List.length_cons]
    rw [if_neg (by omega), readVal_tag_c1 _ _ _ hb]
    rfl
  · intro a fuel p hp
    have h0 : (0 : Int) ≤ p := le_trans (Int.natCast_nonneg _) hp
    have hb : byteAt a (some p) = none := by
      simp only [byteAt, if_pos h0]
      rw [List.get?_eq_none]
      omega
    simp only [readVal, hb]
  · intro f n pos e h
    simp only [readLoop]
    rw [h]
    rfl
  · intro f n pos pos2 v e hok herr
    simp only [readLoop]
    rw [hok, exbind_ok]
    simp only []
    rw [herr]
    rfl
  · intro f n pos e h
    simp only [readPairsLoop]
    rw [h]
    rfl
  · intro f n pos pos2 k e hok herr
    simp only [readPairsLoop]
    rw [hok, exbind_ok]
    simp only []
    rw [herr]
    rfl
  · intro f n pos pos2 pos3 k v e hok hok2 herr
    simp only [readPairsLoop]
    rw [hok, exbind_ok]
    simp only []
    rw [hok2, exbind_ok]
    simp only []
    rw [herr]
    rfl
  · intro a e hne herr
    simp only [decode]
    rw [if_neg (mt List.length_eq_zero.mp hne), herr]
    rfl

/-- The C9 theorem applied at concrete truncated inputs: a starved tag read,
its propagation through both loops on every error path, and through
`decode`. -/
theorem decode_c1_and_tag_truncation_witness :
    ((([0x91] : List Nat).length : Int) ≤ 1 ∧
      readVal [0x91] (1 + 1) (some 1) =
        .error "Invalid byte value in the MessagePack binary data") ∧
    readLoop (readVal [0x91] 2) (0 + 1) (some 1) =
      .error "Invalid byte value in the MessagePack binary data" ∧
    readLoop (readVal [0x92, 0] 3) (1 + 1) (some 1) =
      .error "Invalid byte value in the MessagePack binary data" ∧
    readPairsLoop (readVal [0x91] 2) (0 + 1) (some 1) =
      .error "Invalid byte value in the MessagePack binary data" ∧
    readPairsLoop (readVal [0x81, 0xa1, 97] 4) (0 + 1) (some 1) =
      .error "Invalid byte value in the MessagePack binary data" ∧
    readPairsLoop (readVal [0x82, 0xa1, 97, 1] 5) (1 + 1) (some 1) =
      .error "Invalid byte value in the MessagePack binary data" ∧
    (([0x91] : List Nat) ≠ [] ∧
      decode [0x91] = .error "Invalid byte value in the MessagePack binary data") := by
  obtain ⟨h1, h2, h3, h4, h5, h6, h7, h8, h9⟩ := decode_c1_and_tag_truncation
  refine ⟨⟨by norm_num, h3 [0x91] 1 1 (by norm_num)⟩,
    h4 (readVal [0x91] 2) 0 (some 1)
      "Invalid byte value in the MessagePack binary data" rfl,
    h5 (readVal [0x92, 0] 3) 1 (some 1) (some 2) (.num 0)
      "Invalid byte value in the MessagePack binary data" rfl rfl,
    h6 (readVal [0x91] 2) 0 (some 1)
      "Invalid byte value in the MessagePack binary data" rfl,
    h7 (readVal [0x81, 0xa1, 97] 4) 0 (some 1) (some 3) (.str [97])
      "Invalid byte value in the MessagePack binary data" rfl rfl,
    h8 (readVal [0x82, 0xa1, 97, 1] 5) 1 (some 1) (some 3) (some 4) (.str [97])
      (.num 1) "Invalid byte value in the MessagePack binary data" rfl rfl rfl,
    ⟨by simp, h9 [0x91]
      "Invalid byte value in the MessagePack binary data" (by simp) rfl⟩⟩

/-- C9 counterexample: `[0xa1]` is a strict prefix of the well-formed
encoding `[0xa1, 97]` of the one-byte string "a", yet the decoder accepts it
(`slice` clamps the out-of-range payload window), returning the empty
string; a bare `0xcc` tag is likewise accepted as `NaN` (the out-of-range
payload read yields `undefined`, which the float arithmetic turns into
`NaN`). -/
theorem decode_truncated_counterexample :
    encode (.str [97]) = [0xa1, 97] ∧
      decode [0xa1] = .ok (.str []) ∧
      decode [0xa1, 97] = .ok (.str [97]) ∧
      decode [0xcc] = .ok .nan :=
  ⟨rfl, rfl, rfl, rfl⟩

/-- C5 (code bug): `appendObject` writes the pair count of the full object
(including `undefined`-valued keys) into the map header, then omits the
`undefined`-valued pairs from the body, so the emitted frame differs from
the encoding of the map without the key and is corrupt: the decoder fails
on the encoder's own output. -/
theorem encode_map_undef_header_bug :
    encodePairs [(ascii "a", .num 1), (ascii "b", .undef)] =
        encodePairs [(ascii "a", .num 1)] ∧
      encode (.map [(ascii "a", .num 1), (ascii "b", .undef)]) =
        [0x82, 0xa1, 97, 1] ∧
      encode (.map [(ascii "a", .num 1)]) = [0x81, 0xa1, 97, 1] ∧
      encode (.map [(ascii "a", .num 1), (ascii "b", .undef)]) ≠
        encode (.map [(ascii "a", .num 1)]) ∧
      decode (encode (.map [(ascii "a", .num 1), (ascii "b", .undef)])) =
        .error "Invalid byte value in the MessagePack binary data" :=
  ⟨rfl, rfl, rfl, by decide, rfl⟩

/-! ### Channel join handshake (channel.ts)

The message objects `createChannel`, `handleEvent` and `syncState` pass to
`options.sendMessages`, translated from src/unnamed/part_003.  A frame is the
object literal `{t, op?, c, pl?}`; `pl` carries msgpack-encoded bytes.  The
channel's local `state` is `const state = {}` and is never reassigned, so
`syncState` always encodes the empty map. -/

/-- One message object handed to `options.sendMessages`. -/
structure ChannelMsg where
  t : String
  op : Option String
  c : String
  pl : Option (List Nat)
  deriving Repr, DecidableEq

/-- The channel-side event types `handleEvent` dispatches on. -/
inductive ChanEvent
  | joined
  | dataEvt (payload : MsgValue)
  | peer_online (payload : MsgValue)
  | peer_offline (payload : MsgValue)
  | peer_state (payload : MsgValue)

/-- The frames `createChannel` sends while constructing the channel. -/
def createChannelMsgs (id : String) : List ChannelMsg :=
  [⟨"control", some "channel_join", id, none⟩]

/-- The frames `syncState` sends: `peer_state` with `pl = encode(state)` and
`state = {}`. -/
def syncStateMsgs (id : String) : List ChannelMsg :=
  [⟨"control", some "peer_state", id, some (encode (.map []))⟩]

/-- The frames `handleEvent` sends for each event: `joined` answers with
`peer_online` and returns; `peer_online` (a peer appearing) triggers
`syncState` before notifying; the rest only notify listeners. -/
def handleEventMsgs (id : String) : ChanEvent → List ChannelMsg
  | .joined => [⟨"control", some "peer_online", id, none⟩]
  | .dataEvt _ => []
  | .peer_online _ => syncStateMsgs id
  | .peer_offline _ => []
  | .peer_state _ => []

/-- C8 (amended): on creation the channel sends `channel_join`; on the
server's matching `channel_join` (the `joined` event) it sends only
`peer_online` — no `peer_state` frame; the `peer_state` frame (with
`pl = encode({})`) is sent by `syncState` when a `peer_online` event
arrives from another peer. -/
theorem join_handshake_frames (id : String) :
    createChannelMsgs id = [⟨"control", some "channel_join", id, none⟩] ∧
    handleEventMsgs id .joined = [⟨"control", some "peer_online", id, none⟩] ∧
    (∀ f ∈ handleEventMsgs id .joined, f.op ≠ some "peer_state") ∧
    (∀ p, handleEventMsgs id (.peer_online p) =
      [⟨"control", some "peer_state", id, some (encode (.map []))⟩]) := by
  refine ⟨rfl, rfl, ?_, fun p => rfl⟩
  intro f hf
  simp only [handleEventMsgs, List.mem_singleton] at hf
  subst hf
  simp

/-- C8 counterexample: after the server confirms the join of "room-1", the
channel's reply contains exactly one frame — `peer_online` — and no
`peer_state` frame, contradicting the claimed second frame. -/
theorem joined_sends_no_peer_state :
    handleEventMsgs "room-1" .joined =
      [⟨"control", some "peer_online", "room-1", none⟩] ∧
    (handleEventMsgs "room-1" .joined).length = 1 ∧
    ∀ f ∈ handleEventMsgs "room-1" .joined, f.op ≠ some "peer_state" := by
  refine ⟨rfl, rfl, ?_⟩
  intro f hf
  simp only [handleEventMsgs, List.mem_singleton] at hf
  subst hf
  simp

end Pilarjs
